import Mathlib

/-
Verification of the sgreader SG2/SG3 art-asset decoder.

The Go source is shallowly embedded below.  Machine integers are modelled
as `Nat` (or `Int` where the Go code uses signed values), with explicit
`% 2^w` at the points where the Go code performs a shift inside a narrow
unsigned type, so that the embedding reproduces the source's truncation
behaviour bit for bit.  Rasters model Go's `image.RGBA`: reads outside the
bounds return the zero colour and writes outside the bounds are no-ops,
exactly as `image.RGBA.At` / `image.RGBA.Set` behave.
-/

/-- One RGBA pixel.  Go `color.RGBA` has four `uint8` fields; all values
written by the embedded decoders are below 256. -/
structure RGBAColor where
  r : Nat
  g : Nat
  b : Nat
  a : Nat
deriving Repr, DecidableEq, Inhabited

/-- Model of Go `image.RGBA` with bounds `Rect(0, 0, width, height)`:
row-major pixel list. -/
structure Raster where
  width : Nat
  height : Nat
  pix : List RGBAColor
deriving Repr, DecidableEq, Inhabited

/-- Fresh raster, pre-filled to transparent black, as `GetImage` does with
`image.NewRGBA` followed by a `draw.Draw` of `color.RGBA{0, 0, 0, 0}`. -/
def newRaster (w h : Nat) : Raster :=
  ⟨w, h, List.replicate (w * h) ⟨0, 0, 0, 0⟩⟩

/-- Go `image.RGBA.At`: the zero colour outside the bounds. -/
def imageAt (img : Raster) (x y : Int) : RGBAColor :=
  if 0 ≤ x ∧ x < (img.width : Int) ∧ 0 ≤ y ∧ y < (img.height : Int) then
    img.pix.getD (y.toNat * img.width + x.toNat) ⟨0, 0, 0, 0⟩
  else ⟨0, 0, 0, 0⟩

/-- Go `image.RGBA.Set`: a no-op outside the bounds. -/
def imageSet (img : Raster) (x y : Int) (c : RGBAColor) : Raster :=
  if 0 ≤ x ∧ x < (img.width : Int) ∧ 0 ≤ y ∧ y < (img.height : Int) then
    { img with pix := img.pix.set (y.toNat * img.width + x.toNat) c }
  else img

/-- Embeds `set555Pixel` (main.go).  `c` is the 16-bit colour word.  The Go
code computes the shifts `(c&0x7c00)<<9`, `(c&0x7000)<<4`, `(c&0x3e0)<<6`
and `(c&0x1f)<<3` on the `uint16` operand and only then widens to `uint32`,
so every shift result is truncated to 16 bits: the `% 65536` below models
that truncation.  The final channel unpacking reads R from bits 0-7, G from
bits 8-15 and B from bits 16-23 of the packed word. -/
def set555Pixel (img : Raster) (x y : Int) (c : Nat) : Raster :=
  if c = 0xf81f then img
  else
    let rgb : Nat :=
      0xff000000 |||
      (((c &&& 0x7c00) <<< 9) % 65536) ||| (((c &&& 0x7000) <<< 4) % 65536) |||
      (((c &&& 0x3e0) <<< 6) % 65536) ||| (c &&& 0x300) |||
      (((c &&& 0x1f) <<< 3) % 65536) ||| ((c &&& 0x1c) >>> 2)
    imageSet img x y
      ⟨rgb &&& 0x000000ff, (rgb &&& 0x0000ff00) >>> 8, (rgb &&& 0x00ff0000) >>> 16, 255⟩

/-- Embeds `setAlphaPixel` (main.go).  The alpha expansion shifts inside
`uint8`; `(c2 &&& 0x1f) <<< 3` is at most 248 so the `% 256` never bites but
is kept for fidelity.  Go reads the pixel back with `RGBA()` (which returns
`ch * 0x101` per channel) and truncates with `uint8`, recovering the stored
byte channels unchanged. -/
def setAlphaPixel (img : Raster) (x y : Int) (c2 : Nat) : Raster :=
  let alpha := (((c2 &&& 0x1f) <<< 3) % 256) ||| ((c2 &&& 0x1c) >>> 2)
  let c := imageAt img x y
  imageSet img x y ⟨c.r, c.g, c.b, alpha⟩

/-- Error of `loadPlainImage` when the payload length does not match. -/
inductive PlainError
  | lengthMismatch
deriving Repr, DecidableEq

/-- Embeds `loadPlainImage` (main.go).  `width`, `height`, `length` are the
working record's fields (positive by the `GetImage` guards).  The pixel word
is assembled as `uint16(buffer[i]) | uint16(buffer[i]<<8)`: the second term
shifts a `uint8` left by 8, so it is truncated to 0 (`% 256` models the
`uint8` shift) and only the low byte contributes. -/
def loadPlainImage (width height length : Nat) (img : Raster) (buffer : List Nat) :
    Except PlainError Raster :=
  if height * width * 2 ≠ length then .error .lengthMismatch
  else .ok ((List.range height).foldl (fun imY y =>
    (List.range width).foldl (fun imX x =>
      let i := (y * width + x) * 2
      let b := buffer.getD i 0
      set555Pixel imX (x : Int) (y : Int) (b ||| ((b <<< 8) % 256))) imY) img)

/-- Embeds the mirroring block at the end of `GetImage` (main.go): a fresh
zeroed raster `mirrored`, loops `y = 0 .. Dy()` and `x = 0 .. Dx()/2`
(both inclusive), and the two `Set` calls using column `Dx() - x`. -/
def mirrorImage (result : Raster) : Raster :=
  let w := result.width
  let h := result.height
  (List.range (h + 1)).foldl (fun acc y =>
    (List.range (w / 2 + 1)).foldl (fun acc2 x =>
      let acc3 := imageSet acc2 (x : Int) (y : Int)
        (imageAt result ((w : Int) - (x : Int)) (y : Int))
      imageSet acc3 ((w : Int) - (x : Int)) (y : Int)
        (imageAt result (x : Int) (y : Int))) acc) (newRaster w h)

/-- C1: the claim states that a non-sentinel 5-5-5 word `c` produces the
pixel `(r5<<3|r5>>2, g5<<3|g5>>2, b5<<3|b5>>2, 255)`.  The code disagrees:
for `c = 0x7C00` (pure red, `r5 = 31`) the red contribution is lost to
`uint16` truncation and the decoded pixel is `(0,0,0,255)`, not
`(255,0,0,255)`; for `c = 0x001F` (pure blue) the blue expansion lands in
the R channel, giving `(255,0,0,255)` instead of `(0,0,255,255)`. -/
theorem set555Pixel_red_lost :
    imageAt (set555Pixel (newRaster 1 1) 0 0 0x7c00) 0 0 = ⟨0, 0, 0, 255⟩
    ∧ imageAt (set555Pixel (newRaster 1 1) 0 0 0x001f) 0 0 = ⟨255, 0, 0, 255⟩
    ∧ (⟨0, 0, 0, 255⟩ : RGBAColor) ≠ ⟨255, 0, 0, 255⟩
    ∧ (⟨255, 0, 0, 255⟩ : RGBAColor) ≠ ⟨0, 0, 255, 255⟩ := by
  refine ⟨by decide, by decide, by decide, by decide⟩

/-- C2: on the claim's own test vector (width 2, height 1, length 4, payload
bytes `1F 00 E0 03`) the decoder accepts but produces pixels
`(255,0,0,255)` and `(0,56,0,255)`: the high payload byte of each word is
discarded (`uint16(buffer[i]<<8)` is always 0) and the colour channels are
scrambled by `set555Pixel`.  The claim expected `(0,0,255,255)` and
`(0,255,0,255)`. -/
theorem loadPlainImage_s2_actual :
    loadPlainImage 2 1 4 (newRaster 2 1) [0x1f, 0x00, 0xe0, 0x03] =
      .ok ⟨2, 1, [⟨255, 0, 0, 255⟩, ⟨0, 56, 0, 255⟩]⟩
    ∧ (⟨255, 0, 0, 255⟩ : RGBAColor) ≠ ⟨0, 0, 255, 255⟩
    ∧ (⟨0, 56, 0, 255⟩ : RGBAColor) ≠ ⟨0, 255, 0, 255⟩ := by
  refine ⟨by rfl, by decide, by decide⟩

/-- C3: the claim states the mirror step satisfies
`out[x] = in[width-1-x]` and is an involution.  The code reads column
`width - x` (an off-by-one), so column 0 of the output is the out-of-bounds
zero colour and the pixel of column 0 of the input is lost: on the 2-pixel
row `[(10,20,30,40), (50,60,70,80)]` the mirrored raster is
`[(0,0,0,0), (50,60,70,80)]`, not `[(50,60,70,80), (10,20,30,40)]`, and
mirroring twice does not restore the original raster. -/
theorem mirror_drops_first_column :
    mirrorImage ⟨2, 1, [⟨10, 20, 30, 40⟩, ⟨50, 60, 70, 80⟩]⟩ =
      ⟨2, 1, [⟨0, 0, 0, 0⟩, ⟨50, 60, 70, 80⟩]⟩
    ∧ mirrorImage (mirrorImage ⟨2, 1, [⟨10, 20, 30, 40⟩, ⟨50, 60, 70, 80⟩]⟩) ≠
      ⟨2, 1, [⟨10, 20, 30, 40⟩, ⟨50, 60, 70, 80⟩]⟩ := by
  refine ⟨by decide, by decide⟩

/-- Image record fields (main.go `SgImageRecord`), after binary parsing.
The alpha-absent layout (`SgImageRecordNonAlpha.convert`) leaves
`alphaOffset` and `alphaLength` at zero.  `flags` is split into the four
bytes the code consults. -/
structure SgImageRecord where
  offset : Nat
  length : Nat
  uncompressedLength : Nat
  invertOffset : Int
  width : Int
  height : Int
  imgType : Nat
  flags0 : Nat
  flags1 : Nat
  flags2 : Nat
  flags3 : Nat
  bitmapId : Nat
  alphaOffset : Nat
  alphaLength : Nat
deriving Repr, DecidableEq, Inhabited

/-- Image state (main.go `SgImage`).  `parent` models the parent-bitmap
pointer as the bitmap index; `workRecord` is a copy of the record it points
at (records are immutable after parsing, so the copy is faithful). -/
structure SgImage where
  record : SgImageRecord
  workRecord : SgImageRecord
  invert : Bool
  imageId : Nat
  parent : Option Nat
deriving Repr, DecidableEq, Inhabited

/-- Embeds `newSgImage` (main.go): `workRecord := record` and
`invert` is set exactly when `record.InvertOffset > 0`. -/
def newSgImage (id : Nat) (record : SgImageRecord) : SgImage :=
  { record := record
    workRecord := record
    invert := if 0 < record.invertOffset then true else false
    imageId := id
    parent := none }

/-- Bitmap state (sgbitmap.go `SgBitmap`), restricted to the fields the
loader touches: the ids of the images added by `AddImage`, in order, and
the bitmap's own id. -/
structure SgBitmap where
  images : List Nat
  bitmapId : Nat
deriving Repr, DecidableEq, Inhabited

/-- Catalog state (sgfile.go `SgFile`): the global image list and the
bitmap list. -/
structure SgFileState where
  images : List SgImage
  bitmaps : List SgBitmap
deriving Repr, DecidableEq, Inhabited

/-- Embeds one iteration of the loop in `loadImages` (sgfile.go): build the
image from record `r` (loop index `i`, image id `i+1`); if the invert
offset is negative and `i + invertOffset ≥ 0`, `SetInvertImage` installs
the source image's record as the working record; then `BitmapId()` (which
reads the working record) selects the parent: in range, `AddImage` appends
the image id to that bitmap and `SetParent` records the parent; out of
range, the image is only logged as an orphan.  Finally the image is pushed
onto the global list. -/
def loadImagesStep (st : SgFileState) (i : Nat) (r : SgImageRecord) : SgFileState :=
  let image := newSgImage (i + 1) r
  let image :=
    if r.invertOffset < 0 ∧ 0 ≤ (i : Int) + r.invertOffset then
      { image with
          workRecord := (st.images.getD ((i : Int) + r.invertOffset).toNat default).record }
    else image
  let bitmapId := image.workRecord.bitmapId
  if bitmapId < st.bitmaps.length then
    let bm := st.bitmaps.getD bitmapId default
    { images := st.images ++ [{ image with parent := some bitmapId }]
      bitmaps := st.bitmaps.set bitmapId { bm with images := bm.images ++ [image.imageId] } }
  else
    { images := st.images ++ [image], bitmaps := st.bitmaps }

/-- Folds `loadImagesStep` over the remaining records, carrying the loop
index. -/
def loadImagesAux : SgFileState → Nat → List SgImageRecord → SgFileState
  | st, _, [] => st
  | st, i, r :: rs => loadImagesAux (loadImagesStep st i r) (i + 1) rs

/-- Embeds `loadImages` (sgfile.go).  The leading sentinel image record is
read and discarded by the Go code before the loop; `records` is the list of
the `NumImageRecords` records that follow it. -/
def loadImages (records : List SgImageRecord) (bitmaps : List SgBitmap) : SgFileState :=
  loadImagesAux { images := [], bitmaps := bitmaps } 0 records

/-- Embeds the post-load compaction in `Load` (sgfile.go): when more than
one bitmap exists and the image total equals the first bitmap's image
count, the code executes `sgFile.bitmaps = sgFile.bitmaps[:0]`, i.e.
`take 0`. -/
def loadCompact (st : SgFileState) : SgFileState :=
  if st.bitmaps.length > 1 ∧ st.images.length = (st.bitmaps.getD 0 default).images.length then
    { st with bitmaps := st.bitmaps.take 0 }
  else st

/-- Embeds `checkVersion` (sgfile.go).  `statSize` is the result of
`os.Stat` on the index file: `none` models a stat failure (the code then
rejects), `some sz` the on-disk byte size. -/
def checkVersion (version sgFilesize : Nat) (statSize : Option Nat) : Bool :=
  if version = 0xd3 then
    sgFilesize = 74480 || sgFilesize = 522680
  else if version = 0xd5 || version = 0xd6 then
    match statSize with
    | none => false
    | some sz => sgFilesize = 74480 || sgFilesize = sz
  else false

/-- Failure of `fillBuffer`: a seek to a negative position, or a short read
outside the `requested - 4` tolerance. -/
inductive FillError
  | seekFailed
  | truncated
deriving Repr, DecidableEq

/-- Embeds `fillBuffer` (main.go).  The file is read through the parent
bitmap's handle, modelled as its byte contents.  The Go code computes
`dataLength := workRecord.Length + workRecord.AlphaLength` in `uint32`,
which wraps modulo 2^32: the `% 4294967296` models that wrap.  The code
seeks to `offset` (internal) or `offset - 1` (external); a negative target
makes `Seek` fail.  The read then returns `min requested available` bytes
into a zero-initialised buffer of `dataLength` bytes; a read short by
exactly four is accepted after (redundantly) zero-filling the last four
bytes, any other short read is rejected.  (For a regular file the `err`
disjunct of the Go condition never fires on a full read, so it is absorbed
by the length comparison.) -/
def fillBuffer (flags0 offset length alphaLength : Nat) (file : List Nat) :
    Except FillError (List Nat) :=
  let dataLength := (length + alphaLength) % 4294967296
  let seekPos : Int := if flags0 ≠ 0 then (offset : Int) - 1 else (offset : Int)
  if seekPos < 0 then .error .seekFailed
  else
    let pos := seekPos.toNat
    let dataRead := min dataLength (file.length - pos)
    let buffer := (file.drop pos).take dataRead ++ List.replicate (dataLength - dataRead) 0
    if dataLength ≠ dataRead then
      if dataRead + 4 = dataLength then .ok buffer
      else .error .truncated
    else .ok buffer

/-- C4: the claim states that the compaction keeps exactly the first bitmap
(count 1).  The code executes `bitmaps[:0]`, dropping all of them: with two
bitmaps and a single image attached to the first, the bitmap count after
`Load` is 0, not 1, while the image list is indeed left intact. -/
theorem loadCompact_drops_all :
    (loadCompact (loadImages [default] [⟨[], 0⟩, ⟨[], 1⟩])).bitmaps.length = 0
    ∧ (loadCompact (loadImages [default] [⟨[], 0⟩, ⟨[], 1⟩])).images.length = 1
    ∧ (0 : Nat) ≠ 1 := by
  refine ⟨by decide, by decide, by decide⟩

/-- C5 counterexample: for two successive records whose second has
`invert_offset = -1`, the claim asserts the second image's mirror flag is
set; but `newSgImage` sets `invert` only for positive offsets and
`SetInvertImage` does not touch it, so the flag is false. -/
theorem loadImages_negative_invert_flag_false :
    ((loadImages [default, { (default : SgImageRecord) with invertOffset := -1 }] []).images.getD
        1 default).invert = false := by
  decide

/-- C6: `checkVersion` accepts exactly the claimed (version, size) pairs:
version 0xD3 with declared size 74480 or 522680, and versions 0xD5/0xD6
with declared size 74480 or equal to the on-disk size of the index file;
in particular 0xD3 with size 74481 is rejected (the `Load` caller then
returns the incorrect-version error). -/
theorem checkVersion_spec :
    (∀ version sgFilesize fileSize : Nat,
      checkVersion version sgFilesize (some fileSize) = true ↔
        ((version = 0xd3 ∧ (sgFilesize = 74480 ∨ sgFilesize = 522680))
          ∨ ((version = 0xd5 ∨ version = 0xd6) ∧ (sgFilesize = 74480 ∨ sgFilesize = fileSize))))
    ∧ checkVersion 0xd3 74481 (some 74481) = false := by
  constructor
  · intro version sgFilesize fileSize
    unfold checkVersion
    by_cases h3 : version = 0xd3
    · simp [h3]
    · by_cases h56 : version = 0xd5 ∨ version = 0xd6
      · rcases h56 with h5 | h6
        · simp [h5, h3]
        · have : ¬ version = 0xd5 ∨ True := Or.inr trivial
          simp [h6, h3]
      · push_neg at h56
        simp [h3, h56.1, h56.2]
  · decide

/-- Characterisation of the image the load loop emits at index `j` (0-based
within the emitted list), given the record list and the bitmap count: the
working record is the record at `j + invertOffset` when that offset is
negative and resolves in range, and the parent is the working record's
bitmap id when that id is in range. -/
def emittedImage (recs : List SgImageRecord) (nb : Nat) (j : Nat) : SgImage :=
  let record := recs.getD j default
  let work :=
    if record.invertOffset < 0 ∧ 0 ≤ (j : Int) + record.invertOffset then
      recs.getD ((j : Int) + record.invertOffset).toNat default
    else record
  { record := record
    workRecord := work
    invert := if 0 < record.invertOffset then true else false
    imageId := j + 1
    parent := if work.bitmapId < nb then some work.bitmapId else none }

/-- Reading index `m < i` out of `(List.range i).map f` gives `f m`. -/
theorem getD_map_range {α : Type} (f : Nat → α) (d : α) {i m : Nat} (h : m < i) :
    ((List.range i).map f).getD m d = f m := by
  rw [List.getD_eq_getElem?_getD, List.getElem?_map, List.getElem?_range h]
  rfl

/-- One step of the load loop preserves the emitted-image invariant and the
bitmap count. -/
theorem loadImagesStep_spec (recs : List SgImageRecord) (nb : Nat) (i : Nat)
    (st : SgFileState)
    (hb : st.bitmaps.length = nb)
    (hi : st.images = (List.range i).map (emittedImage recs nb)) :
    (loadImagesStep st i (recs.getD i default)).images
        = (List.range (i + 1)).map (emittedImage recs nb)
    ∧ (loadImagesStep st i (recs.getD i default)).bitmaps.length = nb := by
  have hrange : (List.range (i + 1)).map (emittedImage recs nb)
      = (List.range i).map (emittedImage recs nb) ++ [emittedImage recs nb i] := by
    rw [List.range_succ, List.map_append]
    rfl
  by_cases hcond : (recs.getD i default).invertOffset < 0 ∧
      0 ≤ (i : Int) + (recs.getD i default).invertOffset
  · obtain ⟨h1, h2⟩ := hcond
    have hm : ((i : Int) + (recs.getD i default).invertOffset).toNat < i := by omega
    have hsrc : st.images.getD ((i : Int) + (recs.getD i default).invertOffset).toNat default
        = emittedImage recs nb ((i : Int) + (recs.getD i default).invertOffset).toNat := by
      rw [hi, getD_map_range _ _ hm]
    have hsrcrec :
        (emittedImage recs nb ((i : Int) + (recs.getD i default).invertOffset).toNat).record
        = recs.getD ((i : Int) + (recs.getD i default).invertOffset).toNat default := rfl
    simp only [loadImagesStep, newSgImage, hsrc, hsrcrec, hrange, ← hi, hb,
      if_pos (And.intro h1 h2), emittedImage]
    split
    · exact ⟨rfl, by simp [List.length_set, hb]⟩
    · exact ⟨rfl, hb⟩
  · simp only [loadImagesStep, newSgImage, hrange, ← hi, hb, if_neg hcond, emittedImage]
    split
    · exact ⟨rfl, by simp [List.length_set, hb]⟩
    · exact ⟨rfl, hb⟩

/-- The load loop, started at index `i` with the first `i` images already
emitted, ends with every record's emitted image in place. -/
theorem loadImagesAux_spec (recs : List SgImageRecord) (nb : Nat) :
    ∀ (rs : List SgImageRecord) (i : Nat) (st : SgFileState),
      st.bitmaps.length = nb →
      st.images = (List.range i).map (emittedImage recs nb) →
      recs.drop i = rs → i ≤ recs.length →
      (loadImagesAux st i rs).images = (List.range recs.length).map (emittedImage recs nb)
      ∧ (loadImagesAux st i rs).bitmaps.length = nb := by
  intro rs
  induction rs with
  | nil =>
    intro i st hb hi hdrop hlen
    have hlen' : recs.length - i = 0 := by
      have := congrArg List.length hdrop
      simpa using this
    have : i = recs.length := by omega
    subst this
    exact ⟨hi, hb⟩
  | cons r rs ih =>
    intro i st hb hi hdrop hlen
    have hlt : i < recs.length := by
      by_contra hc
      push_neg at hc
      rw [List.drop_eq_nil_of_le hc] at hdrop
      exact List.noConfusion hdrop
    have hr : recs.getD i default = r := by
      have h0 : recs[i]? = some r := by
        have := List.getElem?_drop recs i 0
        rw [hdrop] at this
        simpa using this.symm
      simp [List.getD_eq_getElem?_getD, h0]
    have hdrop' : recs.drop (i + 1) = rs := by
      have : (recs.drop i).drop 1 = rs := by rw [hdrop]; rfl
      rwa [List.drop_drop] at this
    have hstep := loadImagesStep_spec recs nb i st hb hi
    rw [hr] at hstep
    exact ih (i + 1) (loadImagesStep st i r) hstep.2 hstep.1 hdrop' hlt

/-- The full load loop emits exactly the characterised image list. -/
theorem loadImages_spec (recs : List SgImageRecord) (bms : List SgBitmap) :
    (loadImages recs bms).images
      = (List.range recs.length).map (emittedImage recs bms.length) :=
  (loadImagesAux_spec recs bms.length recs 0 ⟨[], bms⟩ rfl (by simp) rfl
    (Nat.zero_le _)).1

/-- C5 (amended): for an image whose invert offset `k` is negative and
resolves in range, the mirror flag is NOT set (the code sets it only for
positive offsets), the working record equals the record at index `i + k`
of the record list (the source image's own record), and `i + k` is
strictly below `i`: resolution happens against the emitted image list
before the current image is pushed, so an image never takes its own or a
later image's record. -/
theorem loadImages_negative_invert (recs : List SgImageRecord) (bms : List SgBitmap) (j : Nat)
    (hj : j < recs.length)
    (hneg : (recs.getD j default).invertOffset < 0)
    (hin : 0 ≤ (j : Int) + (recs.getD j default).invertOffset) :
    ((loadImages recs bms).images.getD j default).invert = false
    ∧ ((loadImages recs bms).images.getD j default).workRecord
        = recs.getD ((j : Int) + (recs.getD j default).invertOffset).toNat default
    ∧ ((j : Int) + (recs.getD j default).invertOffset).toNat < j := by
  rw [loadImages_spec, getD_map_range _ _ hj]
  refine ⟨?_, ?_, by omega⟩
  · simp only [emittedImage]
    rw [if_neg (by omega)]
  · simp only [emittedImage]
    rw [if_pos (And.intro hneg hin)]

/-- Witness for C5 (amended) at the S6 scenario: records `[r0, r1]` with
`r1.invertOffset = -1`; image 1's flag is false and its working record is
`r0`. -/
theorem loadImages_negative_invert_witness :
    ((loadImages [default, { (default : SgImageRecord) with invertOffset := -1 }]
        []).images.getD 1 default).invert = false
    ∧ ((loadImages [default, { (default : SgImageRecord) with invertOffset := -1 }]
        []).images.getD 1 default).workRecord = (default : SgImageRecord)
    ∧ (0 : Nat) < 1 := by
  have h := loadImages_negative_invert
      [default, { (default : SgImageRecord) with invertOffset := -1 }] [] 1
      (by decide) (by decide) (by decide)
  refine ⟨h.1, ?_, by decide⟩
  refine h.2.1.trans ?_
  decide

/-- C10: when a negative invert offset resolves in range, the parent-bitmap
lookup during load uses the bitmap id of the mirror source's record (the
working record installed by `SetInvertImage` just before `BitmapId()` is
read), not the image's own record's bitmap id. -/
theorem loadImages_mirror_parent (recs : List SgImageRecord) (bms : List SgBitmap) (j : Nat)
    (hj : j < recs.length)
    (hneg : (recs.getD j default).invertOffset < 0)
    (hin : 0 ≤ (j : Int) + (recs.getD j default).invertOffset) :
    ((loadImages recs bms).images.getD j default).parent =
      (if (recs.getD ((j : Int) + (recs.getD j default).invertOffset).toNat
            default).bitmapId < bms.length then
        some ((recs.getD ((j : Int) + (recs.getD j default).invertOffset).toNat
            default).bitmapId)
      else none) := by
  rw [loadImages_spec, getD_map_range _ _ hj]
  simp only [emittedImage]
  rw [if_pos (And.intro hneg hin)]

/-- Witness for C10: the mirrored image's record names bitmap 1, its source
record names bitmap 0, and the image is attached to bitmap 0. -/
theorem loadImages_mirror_parent_witness :
    ((loadImages
        [default, { (default : SgImageRecord) with invertOffset := -1, bitmapId := 1 }]
        [⟨[], 0⟩, ⟨[], 1⟩]).images.getD 1 default).parent = some 0 := by
  have h := loadImages_mirror_parent
      [default, { (default : SgImageRecord) with invertOffset := -1, bitmapId := 1 }]
      [⟨[], 0⟩, ⟨[], 1⟩] 1 (by decide) (by decide) (by decide)
  rw [h]
  decide

/-- C7: `fillBuffer` seeks to `offset` (internal) or `offset - 1`
(external), requests `length + alphaLength` bytes, accepts a full read,
accepts a read short by exactly four bytes with the last four buffer bytes
zero, and rejects every other short read as truncated.  Stated for sums
below 2^32, where the `uint32` addition of the two record fields does not
wrap and the requested count really is `length + alphaLength`. -/
theorem fillBuffer_short_read_policy
    (flags0 offset length alphaLength : Nat) (file : List Nat)
    (pos requested dataRead : Nat)
    (hseek : flags0 ≠ 0 → 1 ≤ offset)
    (hpos : pos = if flags0 ≠ 0 then offset - 1 else offset)
    (hreq : requested = length + alphaLength)
    (hrange : length + alphaLength < 4294967296)
    (hread : dataRead = min requested (file.length - pos)) :
    (dataRead = requested →
      fillBuffer flags0 offset length alphaLength file =
        .ok ((file.drop pos).take dataRead))
    ∧ (dataRead + 4 = requested →
      fillBuffer flags0 offset length alphaLength file =
        .ok ((file.drop pos).take dataRead ++ [0, 0, 0, 0]))
    ∧ (dataRead ≠ requested → dataRead + 4 ≠ requested →
      fillBuffer flags0 offset length alphaLength file = .error FillError.truncated) := by
  have hseekpos : (if flags0 ≠ 0 then (offset : Int) - 1 else (offset : Int)) = (pos : Int) := by
    by_cases hf : flags0 ≠ 0
    · rw [if_pos hf, hpos, if_pos hf]
      have h1 := hseek hf
      omega
    · rw [if_neg hf, hpos, if_neg hf]
  have hmod : (length + alphaLength) % 4294967296 = requested := by omega
  simp only [fillBuffer, hseekpos, hmod]
  rw [if_neg (by omega)]
  have htn : ((pos : Int)).toNat = pos := by omega
  rw [htn, ← hread]
  refine ⟨?_, ?_, ?_⟩
  · intro h
    rw [if_neg (by omega)]
    simp [h]
  · intro h
    rw [if_pos (by omega), if_pos h]
    have h4 : requested - dataRead = 4 := by omega
    rw [h4]
    rfl
  · intro h1 h2
    rw [if_pos (by omega), if_neg h2]

/-- Witness for C7: an external read (seek to `offset - 1 = 2`) of 8
requested bytes from a 6-byte store returns 4 bytes, short by exactly 4,
and is accepted with the last four bytes zero-filled. -/
theorem fillBuffer_short_read_policy_witness :
    fillBuffer 1 3 5 3 [9, 8, 7, 6, 5, 4] = .ok [7, 6, 5, 4, 0, 0, 0, 0] := by
  have h := (fillBuffer_short_read_policy 1 3 5 3 [9, 8, 7, 6, 5, 4] 2 8 4
      (by decide) (by decide) (by decide) (by decide) (by decide)).2.1 (by decide)
  rw [h]
  rfl

/-- Tile-geometry constants (main.go). -/
def ISOMETRIC_TILE_WIDTH : Nat := 58

/-- Regular tile height. -/
def ISOMETRIC_TILE_HEIGHT : Nat := 30

/-- Regular tile payload size in bytes. -/
def ISOMETRIC_TILE_BYTES : Nat := 1800

/-- Large (emperor) tile width. -/
def ISOMETRIC_LARGE_TILE_WIDTH : Nat := 78

/-- Large tile height. -/
def ISOMETRIC_LARGE_TILE_HEIGHT : Nat := 40

/-- Large tile payload size in bytes. -/
def ISOMETRIC_LARGE_TILE_BYTES : Nat := 3200

/-- Failure of `writeIsometricBase`.  `divideByZero` models the Go runtime
panic raised while the unknown-tile-size error message is being formatted:
its first argument is `2*height/size` and `size` is zero on that path. -/
inductive IsoError
  | divideByZero
  | unknownTileSize
  | footprintMismatch
deriving Repr, DecidableEq

/-- Embeds `writeIsometricTile` (main.go): the diamond mask drawn row by
row, upper then lower half, with the running byte index advancing two bytes
per pixel.  The Go word assembly `uint16(buffer[i+1]<<8)|uint16(buffer[i])`
shifts a `uint8` left by 8, so the high byte is truncated to 0 (the
`% 256`). -/
def writeIsometricTile (img : Raster) (buffer : List Nat) (xOffset yOffset : Int)
    (tileWidth tileHeight : Nat) : Raster :=
  let halfHeight := tileHeight / 2
  let upper := (List.range halfHeight).foldl (fun (p : Raster × Nat) y =>
    let start := tileHeight - 2 * (y + 1)
    (List.range (tileWidth - start - start)).foldl (fun (q : Raster × Nat) t =>
      let b0 := buffer.getD q.2 0
      let b1 := buffer.getD (q.2 + 1) 0
      (set555Pixel q.1 (xOffset + ((start + t : Nat) : Int)) (yOffset + (y : Int))
        (((b1 <<< 8) % 256) ||| b0), q.2 + 2)) p) (img, 0)
  let lower := (List.range (tileHeight - halfHeight)).foldl (fun (p : Raster × Nat) dy =>
    let y := halfHeight + dy
    let start := 2 * y - tileHeight
    (List.range (tileWidth - start - start)).foldl (fun (q : Raster × Nat) t =>
      let b0 := buffer.getD q.2 0
      let b1 := buffer.getD (q.2 + 1) 0
      (set555Pixel q.1 (xOffset + ((start + t : Nat) : Int)) (yOffset + (y : Int))
        (((b1 <<< 8) % 256) ||| b0), q.2 + 2)) p) upper
  lower.1

/-- The tile-placement loop of `writeIsometricBase` (main.go): `2*size - 1`
rows, per row the tile-grid x offset and tile count, accumulating the
raster, the tile index `i` (selecting the slice
`buffer[i*tileBytes:]`) and the pixel offsets. -/
def isoDraw (img : Raster) (buffer : List Nat) (size tileBytes tileWidth tileHeight : Nat)
    (yOffset0 : Int) : Raster :=
  let step := fun (p : Raster × Nat × Int) (y : Nat) =>
    let yOffset := p.2.2
    let xOffsetTiles := if y < size then size - y - 1 else y - size + 1
    let xRange := if y < size then y + 1 else 2 * size - y - 1
    let xOffset0 : Int := ((xOffsetTiles * tileHeight : Nat) : Int)
    let inner := (List.range xRange).foldl (fun (q : Raster × Nat × Int) _ =>
      (writeIsometricTile q.1 (buffer.drop (q.2.1 * tileBytes)) q.2.2 yOffset
          tileWidth tileHeight,
        q.2.1 + 1, q.2.2 + (tileWidth : Int) + 2)) (p.1, p.2.1, xOffset0)
    (inner.1, inner.2.1, yOffset + ((tileHeight / 2 : Nat) : Int))
  ((List.range (size + (size - 1))).foldl step (img, 0, yOffset0)).1

/-- Embeds `writeIsometricBase` (main.go).  `height` is the rhombic
footprint height `(width + 2) / 2`; the tile size comes from `flags[3]` or,
when that is zero, is derived from the height with regular tiles taking
precedence.  The Go code performs the footprint check once after the
three-way tile-size branch; here the check is repeated inside the two
accepting branches, which is observably the same.  On the branch where no
tile size matches and `size = 0`, the Go code evaluates `2*height/size`
while building the error value and panics with an integer division by
zero. -/
def writeIsometricBase (flags3 uncompressedLength : Nat) (img : Raster) (buffer : List Nat) :
    Except IsoError Raster :=
  let width := img.width
  let height := (width + 2) / 2
  let heightOffset : Int := (img.height : Int) - (height : Int)
  let size :=
    if flags3 = 0 then
      if height % ISOMETRIC_TILE_HEIGHT = 0 then height / ISOMETRIC_TILE_HEIGHT
      else if height % ISOMETRIC_LARGE_TILE_HEIGHT = 0 then
        height / ISOMETRIC_LARGE_TILE_HEIGHT
      else 0
    else flags3
  if ISOMETRIC_TILE_HEIGHT * size = height then
    if (width + 2) * height ≠ uncompressedLength then .error .footprintMismatch
    else .ok (isoDraw img buffer size ISOMETRIC_TILE_BYTES ISOMETRIC_TILE_WIDTH
      ISOMETRIC_TILE_HEIGHT heightOffset)
  else if ISOMETRIC_LARGE_TILE_HEIGHT * size = height then
    if (width + 2) * height ≠ uncompressedLength then .error .footprintMismatch
    else .ok (isoDraw img buffer size ISOMETRIC_LARGE_TILE_BYTES ISOMETRIC_LARGE_TILE_WIDTH
      ISOMETRIC_LARGE_TILE_HEIGHT heightOffset)
  else if size = 0 then .error .divideByZero
  else .error .unknownTileSize

/-- The row-wrap loop `while x >= width` shared by the RLE decoders, with a
fuel parameter standing in for Go's unbounded loop: callers pass `x.toNat`
fuel, enough for every positive width (GetImage rejects non-positive
widths before any decoder runs; for `width <= 0` the Go loop would not
terminate). -/
def skipWrap (width : Int) : Nat → Int → Int → Int × Int
  | 0, x, y => (x, y)
  | fuel + 1, x, y =>
    if width ≤ x then skipWrap width fuel (x - width) (y + 1) else (x, y)

/-- The inner run of `loadAlphaMask` (main.go) for a control byte `c`:
writes `c` alpha pixels, advancing the cursor with row wrap at `width`,
and advancing the byte index by TWO per datum (`i += 2`), exactly as the
source does.  State is `(raster, x, y, i)`. -/
def alphaRun (width : Int) (buffer : List Nat) :
    Nat → Raster × Int × Int × Nat → Raster × Int × Int × Nat
  | 0, st => st
  | c + 1, st =>
    let img := setAlphaPixel st.1 st.2.1 st.2.2.1 (buffer.getD st.2.2.2 0)
    let x := st.2.1 + 1
    if x ≥ width then alphaRun width buffer c (img, 0, st.2.2.1 + 1, st.2.2.2 + 2)
    else alphaRun width buffer c (img, x, st.2.2.1, st.2.2.2 + 2)

/-- The outer loop of `loadAlphaMask` (main.go): while `i < length`, read
the control byte; 255 is followed by a skip count, anything else by a data
run.  The fuel stands in for the loop bound: the index grows by at least
one per iteration, so `length` fuel is always sufficient. -/
def loadAlphaMaskLoop (width : Int) (length : Nat) (buffer : List Nat) :
    Nat → Nat → Int → Int → Raster → Raster
  | 0, _, _, _, img => img
  | fuel + 1, i, x, y, img =>
    if i < length then
      let c := buffer.getD i 0
      if c = 255 then
        let x1 := x + ((buffer.getD (i + 1) 0 : Nat) : Int)
        let xy := skipWrap width x1.toNat x1 y
        loadAlphaMaskLoop width length buffer fuel (i + 2) xy.1 xy.2 img
      else
        let st := alphaRun width buffer c (img, x, y, i + 1)
        loadAlphaMaskLoop width length buffer fuel st.2.2.2 st.2.1 st.2.2.1 st.1
    else img

/-- Embeds `loadAlphaMask` (main.go): width from the raster bounds, cursor
and index starting at zero. -/
def loadAlphaMask (alphaLength : Nat) (img : Raster) (buffer : List Nat) : Raster :=
  loadAlphaMaskLoop ((img.width : Nat) : Int) alphaLength buffer alphaLength 0 0 0 img

/-- C8: the claim states that when no valid tile size results the decode
fails with the bad-tile-size error.  For a type-30 image of width 5
(footprint height 3, divisible by neither 30 nor 40) with `flags[3] = 0`,
the derived size stays 0 and the code instead panics with an integer
division by zero while formatting that very error (`2*height/size`). -/
theorem writeIsometricBase_size_zero_panics :
    writeIsometricBase 0 0 (newRaster 5 4) [] = .error .divideByZero
    ∧ IsoError.divideByZero ≠ IsoError.unknownTileSize := by
  refine ⟨by rfl, by decide⟩

/-- C9: the claim states a control byte `c < 255` is followed by exactly
`c` data bytes and the decoder consumes exactly `c` bytes for the run.
The code advances the index by two per datum: on the width-2 raster with
alpha buffer `[2, 10, 99, 20, 98]` the run for control byte 2 reads bytes
10 (index 1) and 20 (index 3) — skipping 99 — and stops at index 5, so
pixel (1,0) receives alpha `(20<<3)|(20>>2) = 165`, not the
`(99 and 31)` expansion 24 the claim implies; the RGB channels are
preserved and the 5-bit expansion rule itself matches. -/
theorem loadAlphaMask_consumes_two_per_datum :
    loadAlphaMask 5 ⟨2, 2, [⟨1, 2, 3, 4⟩, ⟨5, 6, 7, 8⟩, ⟨9, 10, 11, 12⟩, ⟨13, 14, 15, 16⟩]⟩
        [2, 10, 99, 20, 98]
      = ⟨2, 2, [⟨1, 2, 3, 82⟩, ⟨5, 6, 7, 165⟩, ⟨9, 10, 11, 12⟩, ⟨13, 14, 15, 16⟩]⟩
    ∧ (165 : Nat) ≠ 24 := by
  refine ⟨by rfl, by decide⟩
